import Mathlib

/-!
Shallow embedding of the availability-filtering and message-formatting core of
the `find-pickleball-court-sf` repository, together with theorems settling the
frozen claims about it.

The filter core lives in `src/court_availability.py`
(`filter_by_days_and_times`, `_extract_time_ranges`, `_is_time_in_ranges`,
`_get_day_of_week_safe`); the formatter lives in `src/slack_notifier.py`
(`format_message`).  Python operations that can raise are embedded as
`Except PyErr`-valued functions; the `try/except` blocks of the source become
`match` on those `Except` values at exactly the places the source catches.
-/

namespace Pickleball

/-- Python exception kinds that the embedded code can raise or catch. -/
inductive PyErr where
  | valueError
  | indexError
  | typeError
deriving DecidableEq, Repr

/-- Numeric value of a decimal digit character. -/
def digitVal (c : Char) : Nat := c.toNat - 48

/-- Splitting of a character list on a separator character; every separator
occurrence produces a boundary, so Python's `"".split(":") == [""]` and
`"a::b".split(":") == ["a", "", "b"]` are reproduced. -/
def splitOnCharAux (c : Char) : List Char → List Char → List (List Char)
  | [], acc => [acc.reverse]
  | x :: xs, acc =>
    if x = c then acc.reverse :: splitOnCharAux c xs []
    else splitOnCharAux c xs (x :: acc)

/-- Python `s.split(c)` for a single-character separator. -/
def splitOnChar (c : Char) (s : String) : List String :=
  (splitOnCharAux c s.data []).map (fun cs => String.mk cs)

/-- The whitespace characters stripped by Python `str.strip()` (ASCII part). -/
def isPyWS (c : Char) : Bool :=
  c == ' ' || c == '\t' || c == '\n' || c == '\r' || c == '\x0b' || c == '\x0c'

/-- Removal of leading characters satisfying a predicate. -/
def dropLeading (p : Char → Bool) : List Char → List Char
  | [] => []
  | x :: xs => if p x then dropLeading p xs else x :: xs

/-- Python `s.strip()`: whitespace removed from both ends. -/
def pyStrip (s : String) : String :=
  String.mk ((dropLeading isPyWS (dropLeading isPyWS s.data).reverse).reverse)

/-- Python string comparison `a < b`: lexicographic on code points, a proper
prefix being smaller. -/
def charListLt : List Char → List Char → Bool
  | [], [] => false
  | [], _ :: _ => true
  | _ :: _, [] => false
  | a :: as, b :: bs =>
    if a.toNat < b.toNat then true
    else if b.toNat < a.toNat then false
    else charListLt as bs

/-- Python string comparison `a <= b`. -/
def strLeB (a b : String) : Bool := !(charListLt b.data a.data)

/-- Insertion of a string into a sorted list (ascending Python order). -/
def insertStr (m : String) : List String → List String
  | [] => [m]
  | x :: xs => if strLeB m x then m :: x :: xs else x :: insertStr m xs

/-- Ascending sort of strings in Python's lexicographic order, as performed by
`sorted()` on string keys. -/
def pySortStrs : List String → List String
  | [] => []
  | x :: xs => insertStr x (pySortStrs xs)

/-- Concatenation of a list of strings (Python `"".join` / `+=` accumulation). -/
def strJoin : List String → String
  | [] => ""
  | x :: xs => x ++ strJoin xs

/-- Python `sep.join(parts)`. -/
def strIntercalate (sep : String) : List String → String
  | [] => ""
  | [x] => x
  | x :: xs => x ++ sep ++ strIntercalate sep xs

/-- Tail of a Python integer literal after its first digit: further digits with
single underscores allowed only between digits (CPython `int()` grammar). -/
def pyDigitsGo (acc : Nat) : List Char → Option Nat
  | [] => some acc
  | '_' :: c :: cs => if c.isDigit then pyDigitsGo (acc * 10 + digitVal c) cs else none
  | ['_'] => none
  | c :: cs => if c.isDigit then pyDigitsGo (acc * 10 + digitVal c) cs else none

/-- Digit part of a Python integer literal: nonempty decimal digits, with
single underscores allowed between digits. -/
def pyDigits : List Char → Option Nat
  | [] => none
  | c :: cs => if c.isDigit then pyDigitsGo (digitVal c) cs else none

/-- Model of Python `int(s)` on decimal strings: surrounding whitespace is
stripped, then an optional sign followed by nonempty digits (with underscores
between digits); anything else raises `ValueError`. -/
def pyIntE (s : String) : Except PyErr Int :=
  match (pyStrip s).data with
  | '+' :: cs =>
    match pyDigits cs with
    | some n => .ok (n : Int)
    | none => .error .valueError
  | '-' :: cs =>
    match pyDigits cs with
    | some n => .ok (-(n : Int))
    | none => .error .valueError
  | cs =>
    match pyDigits cs with
    | some n => .ok (n : Int)
    | none => .error .valueError

/-- Body of the `try` blocks `hours, mins = map(int, t.split(':'))`:
split on `':'`, require exactly two components, convert each with `int`, and
return minutes since midnight; any failure raises `ValueError`. -/
def timeToMinutesE (t : String) : Except PyErr Int :=
  match splitOnChar ':' t with
  | [h, m] => do
    let hv ← pyIntE h
    let mv ← pyIntE m
    .ok (hv * 60 + mv)
  | _ => .error .valueError

/-- The range-building loop of `_extract_time_ranges`, after the first element
has initialised `start` and `prev`: a gap of more than 60 minutes closes the
current range and starts a new one, otherwise the current range is extended. -/
def rangesWalk (start prev : Int) : List Int → List (Int × Int)
  | [] => [(start, prev)]
  | m :: rest =>
    if m - prev > 60 then (start, prev) :: rangesWalk m m rest
    else rangesWalk start m rest

/-- Embedding of `CourtAvailabilityChecker._extract_time_ranges`: parse each
selector time to minutes since midnight (silently skipping unparseable
entries), sort ascending, and cluster into contiguous ranges where consecutive
values are at most 60 minutes apart. -/
def _extract_time_ranges (times : List String) : List (Int × Int) :=
  let minutes := times.filterMap (fun t => (timeToMinutesE t).toOption)
  let minutes := List.insertionSort (· ≤ ·) minutes
  match minutes with
  | [] => []
  | m :: rest => rangesWalk m m rest

/-- Embedding of `CourtAvailabilityChecker._is_time_in_ranges`: parse the
record time to minutes and test inclusive membership in any range; a parse
failure is caught and reported as `False`. -/
def _is_time_in_ranges (time_str : String) (time_ranges : List (Int × Int)) : Bool :=
  match timeToMinutesE time_str with
  | .ok minutes => time_ranges.any (fun r => decide (r.1 ≤ minutes) && decide (minutes ≤ r.2))
  | .error _ => false

/-- Gregorian leap-year test, as used by Python's `datetime`. -/
def isLeapYear (y : Nat) : Bool := y % 4 == 0 && (y % 100 != 0 || y % 400 == 0)

/-- Number of days in a month of the proleptic Gregorian calendar. -/
def daysInMonth (y m : Nat) : Nat :=
  if m == 2 then (if isLeapYear y then 29 else 28)
  else if m == 4 || m == 6 || m == 9 || m == 11 then 30
  else 31

/-- Whether every character of a string is a decimal digit. -/
def allDigits (s : String) : Bool := s.data.all Char.isDigit

/-- Numeric value of a string of decimal digits. -/
def natOfDigits (s : String) : Nat := s.data.foldl (fun a c => a * 10 + digitVal c) 0

/-- Model of `datetime.datetime.strptime(s, "%Y-%m-%d")`: `%Y` is exactly four
digits, `%m` one or two digits valued 1–12, `%d` one or two digits valued 1–31,
the whole string must match, and the resulting triple must be a valid calendar
date with year at least 1; otherwise `ValueError` is raised. -/
def strptimeYmdE (s : String) : Except PyErr (Nat × Nat × Nat) :=
  match splitOnChar '-' s with
  | [ys, ms, ds] =>
    if allDigits ys && (ys.length == 4)
        && allDigits ms && (ms.length == 1 || ms.length == 2)
        && decide (1 ≤ natOfDigits ms) && decide (natOfDigits ms ≤ 12)
        && allDigits ds && (ds.length == 1 || ds.length == 2)
        && decide (1 ≤ natOfDigits ds) && decide (natOfDigits ds ≤ 31) then
      let y := natOfDigits ys
      let m := natOfDigits ms
      let d := natOfDigits ds
      if decide (1 ≤ y) && decide (d ≤ daysInMonth y m) then .ok (y, m, d)
      else .error .valueError
    else .error .valueError
  | _ => .error .valueError

/-- Weekday index of a proleptic Gregorian date, 0 = Monday … 6 = Sunday
(Zeller's congruence), matching Python's `date.weekday()`. -/
def pyWeekday (y m d : Nat) : Nat :=
  let zy := if m ≤ 2 then y - 1 else y
  let zm := if m ≤ 2 then m + 12 else m
  let K := zy % 100
  let J := zy / 100
  let h := (d + (13 * (zm + 1)) / 5 + K + K / 4 + J / 4 + 5 * J) % 7
  (h + 5) % 7

/-- The seven English weekday names, in the order used by
`_get_day_of_week_safe`. -/
def dayNames : List String :=
  ["Monday", "Tuesday", "Wednesday", "Thursday", "Friday", "Saturday", "Sunday"]

/-- English weekday name of a date, as produced by `strftime("%A")`. -/
def weekdayName (y m d : Nat) : String := dayNames.getD (pyWeekday y m d) ""

/-- Embedding of `CourtAvailabilityChecker._get_day_of_week_safe`: parse the
date as `%Y-%m-%d` and return its weekday name; on `ValueError`, return the
raw string if it is itself a weekday name, else the empty string. -/
def _get_day_of_week_safe (date_str : String) : String :=
  match strptimeYmdE date_str with
  | .ok (y, m, d) => weekdayName y m d
  | .error _ => if dayNames.contains date_str then date_str else ""

/-- The record shape flowing through the core: the `model_dump` of the
`CourtAvailability` pydantic model. -/
structure CourtAvailability where
  court : String
  date : String
  time : String
  available : Bool
deriving DecidableEq, Repr

/-- Python truthiness of an optional list argument (`if days:`):
`None` and the empty list are falsy. -/
def truthySel : Option (List String) → Bool
  | none => false
  | some l => !l.isEmpty

/-- Embedding of `CourtAvailabilityChecker.filter_by_days_and_times`: copy the
input, then, when the `days` argument is truthy, keep records whose
`_get_day_of_week_safe` weekday is a member of `days`; then, when the `times`
argument is truthy, keep records whose time lies in some extracted range. -/
def filter_by_days_and_times (availabilities : List CourtAvailability)
    (days times : Option (List String)) : List CourtAvailability :=
  let filtered := availabilities
  let filtered :=
    match days with
    | some ds =>
      if ds.isEmpty then filtered
      else filtered.filter (fun a => ds.contains (_get_day_of_week_safe a.date))
    | none => filtered
  match times with
  | some ts =>
    if ts.isEmpty then filtered
    else
      let time_ranges := _extract_time_ranges ts
      filtered.filter (fun a => _is_time_in_ranges a.time time_ranges)
  | none => filtered

/-! ### Digest formatter (`src/slack_notifier.py`, `SlackNotifier.format_message`) -/

/-- Model of `datetime.datetime.strptime(s, "%H:%M")`: `%H` is one or two
digits valued 0–23, `%M` one or two digits valued 0–59, separated by a single
colon, with the whole string matching; otherwise `ValueError` is raised. -/
def strptimeHME (s : String) : Except PyErr (Nat × Nat) :=
  match splitOnChar ':' s with
  | [hs, ms] =>
    if allDigits hs && (hs.length == 1 || hs.length == 2) && decide (natOfDigits hs ≤ 23)
        && allDigits ms && (ms.length == 1 || ms.length == 2) && decide (natOfDigits ms ≤ 59) then
      .ok (natOfDigits hs, natOfDigits ms)
    else .error .valueError
  | _ => .error .valueError

/-- Zero-padded two-digit rendering of a number below 100 (`%M`, `%d`). -/
def pad2 (n : Nat) : String := if n < 10 then "0" ++ toString n else toString n

/-- Rendering of a parsed time by `strftime("%-I:%M %p")`: unpadded 12-hour
hour, zero-padded minute, and AM for hours before noon. -/
def fmt12 (h mi : Nat) : String :=
  let h12 := if h % 12 == 0 then 12 else h % 12
  toString h12 ++ ":" ++ pad2 mi ++ " " ++ (if h < 12 then "AM" else "PM")

/-- The twelve English month names produced by `strftime("%B")`. -/
def monthNames : List String :=
  ["January", "February", "March", "April", "May", "June",
   "July", "August", "September", "October", "November", "December"]

/-- English month name of a one-based month number. -/
def monthName (m : Nat) : String := monthNames.getD (m - 1) ""

/-- Building of a Python dict of lists: append `r` to the entry for key `k`,
creating the entry at the end (insertion order) when the key is new. -/
def addToGroup {α K : Type} [DecidableEq K] (k : K) (r : α) :
    List (K × List α) → List (K × List α)
  | [] => [(k, [r])]
  | (k', rs) :: rest =>
    if k' = k then (k', rs ++ [r]) :: rest else (k', rs) :: addToGroup k r rest

/-- Grouping of a list into a dict of lists keyed by `key`, keys in first-seen
order and each value list in input order. -/
def groupByKey {α K : Type} [DecidableEq K] (key : α → K) (xs : List α) :
    List (K × List α) :=
  xs.foldl (fun acc r => addToGroup (key r) r acc) []

/-- The `date_court_times` dict of `format_message`: for each `(date, court)`
pair the set of distinct times seen for it, modelled as a deduplicated list. -/
def date_court_times (availabilities : List CourtAvailability) :
    List ((String × String) × List String) :=
  (groupByKey (fun a => (a.date, a.court)) availabilities).map
    (fun g => (g.1, (g.2.map (fun a => a.time)).dedup))

/-- The placeholder-detection loop of `format_message`: some `(date, court)`
group has more than one time and not all its times equal the first. -/
def hasRealData (availabilities : List CourtAvailability) : Bool :=
  (date_court_times availabilities).any (fun g =>
    match g.2 with
    | [] => false
    | t0 :: _ => decide (g.2.length > 1) && !(g.2.all (fun t => t == t0)))

/-- The `time_slots` dict of one court's loop: a parsed time is appended (as
its 12-hour rendering) to the bucket of its hour, an unparseable time becomes
a bucket keyed by its literal string, populated only on first sight. -/
def buildTimeSlots (times : List CourtAvailability) :
    List (Sum Nat String × List String) :=
  times.foldl
    (fun slots t =>
      match strptimeHME t.time with
      | .ok (h, mi) => addToGroup (Sum.inl h) (fmt12 h mi) slots
      | .error _ =>
        if slots.any (fun g => decide (g.1 = Sum.inr t.time)) then slots
        else slots ++ [(Sum.inr t.time, [t.time])])
    []

/-- Python `sorted(time_slots.keys())`: homogeneous `int` keys sort
numerically, homogeneous `str` keys sort lexicographically, and a mix of the
two raises `TypeError` (ints and strings do not compare in Python 3). -/
def sortSlotKeysE (keys : List (Sum Nat String)) : Except PyErr (List (Sum Nat String)) :=
  let nats := keys.filterMap (fun k => match k with | .inl n => some n | .inr _ => none)
  let strs := keys.filterMap (fun k => match k with | .inl _ => none | .inr s => some s)
  if nats.isEmpty then .ok ((pySortStrs strs).map Sum.inr)
  else if strs.isEmpty then .ok ((List.insertionSort (· ≤ ·) nats).map Sum.inl)
  else .error .typeError

/-- The minute extraction `s.split(":")[1].split(" ")[0]` applied to a
rendered 12-hour time such as `6:15 PM`. -/
def minutePartOf (s : String) : String :=
  ((splitOnChar ' ' ((splitOnChar ':' s).getD 1 "")).headD "")

/-- Rendering of one hour bucket: `slots = sorted(set(time_slots[hour]))`,
then a lone rendering is used as is, several renderings in one integer hour
collapse to `<12h-hour>:<min1>, <min2> <AM|PM>`, and a literal (string) bucket
joins its entries with `, `. -/
def renderHourGroup (hour : Sum Nat String) (slotsRaw : List String) : String :=
  let slots := pySortStrs slotsRaw.dedup
  match hour with
  | .inl h =>
    if slots.length == 1 then slots.headD ""
    else
      let hour_ampm := if h < 12 then "AM" else "PM"
      let display_hour := if h ≤ 12 then h else h - 12
      let display_hour := if display_hour == 0 then 12 else display_hour
      let minutes := slots.map minutePartOf
      toString display_hour ++ ":" ++ strIntercalate ", " minutes ++ " " ++ hour_ampm
  | .inr _ => strIntercalate ", " slots

/-- The per-court body of `format_message`: build `time_slots`, and when it is
nonempty sort its keys (which can raise `TypeError` on mixed key types), render
each hour bucket, join with ` | `, and emit the court's bullet line. -/
def renderCourt (court_name : String) (times : List CourtAvailability) :
    Except PyErr String :=
  let time_slots := buildTimeSlots times
  if time_slots.isEmpty then .ok ""
  else do
    let sorted_hours ← sortSlotKeysE (time_slots.map (fun g => g.1))
    let time_parts := sorted_hours.map (fun hour =>
      renderHourGroup hour ((time_slots.lookup hour).getD []))
    .ok ("• " ++ court_name ++ ": " ++ strIntercalate " | " time_parts ++ "\n")

/-- Date heading of a block: `strftime("%A, %B %d, %Y")` of the parsed date,
or the raw string when parsing raises `ValueError`. -/
def renderDateHeader (date : String) : String :=
  match strptimeYmdE date with
  | .ok (y, m, d) =>
    weekdayName y m d ++ ", " ++ monthName m ++ " " ++ pad2 d ++ ", " ++ toString y
  | .error _ => date

/-- One date block of the digest: bold heading, then one bullet line per court
in lexicographic court order, then a blank line. -/
def renderDateBlock (date : String) (courts : List CourtAvailability) :
    Except PyErr String :=
  let formatted_date := renderDateHeader date
  let court_groups := groupByKey (fun c => c.court) courts
  let sorted_courts := pySortStrs (court_groups.map (fun g => g.1))
  do
    let lines ← sorted_courts.mapM
      (fun cn => renderCourt cn ((court_groups.lookup cn).getD []))
    .ok ("*" ++ formatted_date ++ "*\n" ++ strJoin lines ++ "\n")

/-- The fixed fallback message of `format_message`. -/
def fallbackMsg : String := "No available pickleball courts found for your requested times."

/-- The fixed digest header of `format_message`. -/
def headerMsg : String := "🏓 *Available Pickleball Courts* 🏓\n\n"

/-- The fixed booking call-to-action appended at the end of a digest. -/
def ctaMsg : String := "Book your court at https://sfrecpark.org/1591/Reservable-Pickleball-Courts"

/-- The date-block accumulation of `format_message`: group by `date`, sort
the dates lexicographically, and concatenate the rendered blocks, propagating
any exception raised while rendering. -/
def digestBlocksE (availabilities : List CourtAvailability) : Except PyErr String :=
  let date_groups := groupByKey (fun a => a.date) availabilities
  let sorted_dates := pySortStrs (date_groups.map (fun g => g.1))
  do
    let blocks ← sorted_dates.mapM
      (fun d => renderDateBlock d ((date_groups.lookup d).getD []))
    .ok (strJoin blocks)

/-- Embedding of `SlackNotifier.format_message`: empty input or input judged
to be placeholder data yields the fixed fallback message; otherwise the digest
is the header, the date blocks in lexicographic date order, and the
call-to-action.  The propagated `PyErr` is the `TypeError` that Python raises
when one court mixes integer and string `time_slots` keys. -/
def format_message (availabilities : List CourtAvailability) : Except PyErr String :=
  if availabilities.isEmpty then .ok fallbackMsg
  else if !hasRealData availabilities then .ok fallbackMsg
  else
    match digestBlocksE availabilities with
    | .ok body => .ok (headerMsg ++ body ++ ctaMsg)
    | .error e => .error e

/-! ### Derived predicates of the filter -/

/-- The day-comprehension condition of `filter_by_days_and_times`:
`self._get_day_of_week_safe(avail["date"]) in days`. -/
def dayPass (ds : List String) (a : CourtAvailability) : Bool :=
  ds.contains (_get_day_of_week_safe a.date)

/-- The time-comprehension condition of `filter_by_days_and_times`:
`self._is_time_in_ranges(avail["time"], time_ranges)` with the ranges
extracted from the `times` selector. -/
def timePass (ts : List String) (a : CourtAvailability) : Bool :=
  _is_time_in_ranges a.time (_extract_time_ranges ts)

/-- Boolean test that `t` is a suffix of `s` (used to state that a message
ends with the call-to-action). -/
def hasSuffixStr (s t : String) : Bool := t.data.isSuffixOf s.data

/-- Whether an embedded Python computation completed without raising. -/
def isOkE {ε α : Type} : Except ε α → Bool
  | .ok _ => true
  | .error _ => false

/-! ### Shape lemmas for the filter -/

/-- Unfolding of the filter when both selectors are truthy. -/
lemma filter_both_eq (x : List CourtAvailability) (ds ts : List String)
    (hds : ds.isEmpty = false) (hts : ts.isEmpty = false) :
    filter_by_days_and_times x (some ds) (some ts)
      = (x.filter (dayPass ds)).filter (timePass ts) := by
  cases ds with
  | nil => simp at hds
  | cons d ds' =>
    cases ts with
    | nil => simp at hts
    | cons t ts' => rfl

/-- Unfolding of the filter when only the day selector is truthy. -/
lemma filter_day_eq (x : List CourtAvailability) (ds : List String)
    (hds : ds.isEmpty = false) :
    filter_by_days_and_times x (some ds) none = x.filter (dayPass ds) := by
  cases ds with
  | nil => simp at hds
  | cons d ds' => rfl

/-- Unfolding of the filter when only the time selector is truthy. -/
lemma filter_time_eq (x : List CourtAvailability) (ts : List String)
    (hts : ts.isEmpty = false) :
    filter_by_days_and_times x none (some ts) = x.filter (timePass ts) := by
  cases ts with
  | nil => simp at hts
  | cons t ts' => rfl

/-- Filtering twice with the same predicate is filtering once. -/
lemma filter_self_idem {α : Type} (p : α → Bool) (x : List α) :
    (x.filter p).filter p = x.filter p := by
  rw [List.filter_filter]
  simp only [Bool.and_self]

/-- A day-then-time filter chain is unchanged by a second pass. -/
lemma filter_chain_idem {α : Type} (p q : α → Bool) (x : List α) :
    (((x.filter p).filter q).filter p).filter q = (x.filter p).filter q := by
  simp only [List.filter_filter]
  apply List.filter_congr
  intro a _
  cases hp : p a <;> cases hq : q a <;> simp [hp, hq]

/-- Records on which the predicate is false can be dropped before filtering. -/
lemma filter_drop_of_pred_false {α : Type} {p : α → Bool} (pre post : List α)
    (r : α) (h : p r = false) :
    (pre ++ r :: post).filter p = (pre ++ post).filter p := by
  simp [List.filter_append, List.filter_cons, h]

/-! ### Claim theorems -/

/-- C1 (amended): `_extract_time_ranges` clusters `["09:00","10:00","11:00"]`
into the single range `[540, 660]` and splits `["09:00","13:00"]` (gap greater
than 60 minutes) into the two disjoint point ranges `[540,540]` and
`[780,780]`; a record at `"12:00"` (720 minutes) fails time filtering under
both selectors, since 720 lies outside every emitted range. -/
theorem time_range_clustering_examples :
    _extract_time_ranges ["09:00", "10:00", "11:00"] = [(540, 660)]
    ∧ _extract_time_ranges ["09:00", "13:00"] = [(540, 540), (780, 780)]
    ∧ (∀ m : Int, (decide (540 ≤ m ∧ m ≤ 540) && decide (780 ≤ m ∧ m ≤ 780)) = false)
    ∧ _is_time_in_ranges "12:00" (_extract_time_ranges ["09:00", "10:00", "11:00"]) = false
    ∧ _is_time_in_ranges "12:00" (_extract_time_ranges ["09:00", "13:00"]) = false := by
  refine ⟨by decide, by decide, ?_, by decide, by decide⟩
  intro m
  by_cases h : (540 ≤ m ∧ m ≤ 540)
  · have h2 : ¬(780 ≤ m ∧ m ≤ 780) := by omega
    simp [h2]
  · simp [h]

/-- C1 counterexample: contrary to the claim, a record at `"12:00"` does not
pass time filtering under the selector `["09:00","10:00","11:00"]`: the
clustered range ends at 660 minutes and 12:00 is 720 minutes. -/
theorem time_noon_fails_three_item_selector_cex :
    _is_time_in_ranges "12:00" (_extract_time_ranges ["09:00", "10:00", "11:00"]) = false
    ∧ _extract_time_ranges ["09:00", "10:00", "11:00"] = [(540, 660)] := by
  exact ⟨by decide, by decide⟩

/-- C2: with no day selector and no time selector, `filter_by_days_and_times`
returns the input list unchanged: same elements, same order. -/
theorem filter_no_selectors_is_identity (records : List CourtAvailability) :
    filter_by_days_and_times records none none = records := rfl

/-- C10: empty-list selectors behave exactly like omitted selectors: an empty
`days` list performs no day filtering, an empty `times` list performs no time
filtering, and with both selectors empty the input is returned unchanged. -/
theorem filter_empty_selectors_are_noops (records : List CourtAvailability)
    (days times : Option (List String)) :
    filter_by_days_and_times records (some []) times
        = filter_by_days_and_times records none times
    ∧ filter_by_days_and_times records days (some [])
        = filter_by_days_and_times records days none
    ∧ filter_by_days_and_times records (some []) (some []) = records := by
  refine ⟨rfl, ?_, rfl⟩
  cases days with
  | none => rfl
  | some ds => rfl

/-- C3: the filter is idempotent: applying `filter_by_days_and_times` twice
with the same selectors gives the same list as applying it once. -/
theorem filter_idempotent (x : List CourtAvailability)
    (days times : Option (List String)) :
    filter_by_days_and_times (filter_by_days_and_times x days times) days times
      = filter_by_days_and_times x days times := by
  cases days with
  | none =>
    cases times with
    | none => rfl
    | some ts =>
      cases ts with
      | nil => rfl
      | cons t ts' =>
        rw [filter_time_eq x (t :: ts') rfl, filter_time_eq _ (t :: ts') rfl]
        exact filter_self_idem _ x
  | some ds =>
    cases ds with
    | nil =>
      cases times with
      | none => rfl
      | some ts =>
        cases ts with
        | nil => rfl
        | cons t ts' =>
          have h1 : ∀ y, filter_by_days_and_times y (some []) (some (t :: ts'))
              = y.filter (timePass (t :: ts')) := fun _ => rfl
          rw [h1, h1]
          exact filter_self_idem _ x
    | cons d ds' =>
      cases times with
      | none =>
        rw [filter_day_eq x (d :: ds') rfl, filter_day_eq _ (d :: ds') rfl]
        exact filter_self_idem _ x
      | some ts =>
        cases ts with
        | nil =>
          have h1 : ∀ y, filter_by_days_and_times y (some (d :: ds')) (some [])
              = y.filter (dayPass (d :: ds')) := fun _ => rfl
          rw [h1, h1]
          exact filter_self_idem _ x
        | cons t ts' =>
          rw [filter_both_eq x (d :: ds') (t :: ts') rfl rfl, filter_both_eq _ (d :: ds') (t :: ts') rfl rfl]
          exact filter_chain_idem _ _ x

/-- C5: the output of `filter_by_days_and_times` is always a subsequence of
its input (every output element occurs in the input and the relative input
order is preserved), and when both selectors are supplied (non-empty) a record
is in the output iff it is in the input and passes the day test and the time
test. -/
theorem filter_output_sublist_and_pass_iff :
    (∀ (x : List CourtAvailability) (days times : Option (List String)),
        (filter_by_days_and_times x days times).Sublist x)
    ∧ (∀ (x : List CourtAvailability) (ds ts : List String), ds ≠ [] → ts ≠ [] →
        ∀ r, r ∈ filter_by_days_and_times x (some ds) (some ts) ↔
          r ∈ x ∧ dayPass ds r = true ∧ timePass ts r = true) := by
  constructor
  · intro x days times
    cases days with
    | none =>
      cases times with
      | none => exact List.Sublist.refl x
      | some ts =>
        cases ts with
        | nil => exact List.Sublist.refl x
        | cons t ts' =>
          rw [filter_time_eq x (t :: ts') rfl]
          exact List.filter_sublist x
    | some ds =>
      cases ds with
      | nil =>
        cases times with
        | none => exact List.Sublist.refl x
        | some ts =>
          cases ts with
          | nil => exact List.Sublist.refl x
          | cons t ts' =>
            have h1 : filter_by_days_and_times x (some []) (some (t :: ts'))
                = x.filter (timePass (t :: ts')) := rfl
            rw [h1]
            exact List.filter_sublist x
      | cons d ds' =>
        cases times with
        | none =>
          rw [filter_day_eq x (d :: ds') rfl]
          exact List.filter_sublist x
        | some ts =>
          cases ts with
          | nil =>
            have h1 : filter_by_days_and_times x (some (d :: ds')) (some [])
                = x.filter (dayPass (d :: ds')) := rfl
            rw [h1]
            exact List.filter_sublist x
          | cons t ts' =>
            rw [filter_both_eq x (d :: ds') (t :: ts') rfl rfl]
            exact (List.filter_sublist _).trans (List.filter_sublist x)
  · intro x ds ts hds hts r
    obtain ⟨d, ds', rfl⟩ : ∃ d ds', ds = d :: ds' := by
      cases ds with
      | nil => exact absurd rfl hds
      | cons a b => exact ⟨a, b, rfl⟩
    obtain ⟨t, ts', rfl⟩ : ∃ t ts', ts = t :: ts' := by
      cases ts with
      | nil => exact absurd rfl hts
      | cons a b => exact ⟨a, b, rfl⟩
    rw [filter_both_eq x (d :: ds') (t :: ts') rfl rfl]
    simp only [List.mem_filter]
    constructor
    · rintro ⟨⟨hx, hd⟩, ht⟩
      exact ⟨hx, hd, ht⟩
    · rintro ⟨hx, hd, ht⟩
      exact ⟨⟨hx, hd⟩, ht⟩

/-- C5 witness: a Thursday 18:00 record passes both the
`["Thursday","Saturday"]` day selector and the `["18:00","19:00"]` time
selector, hence appears in the filtered output. -/
theorem filter_output_sublist_and_pass_iff_witness :
    (⟨"Court E", "2025-06-05", "18:00", true⟩ : CourtAvailability) ∈
      filter_by_days_and_times [⟨"Court E", "2025-06-05", "18:00", true⟩]
        (some ["Thursday", "Saturday"]) (some ["18:00", "19:00"]) :=
  (filter_output_sublist_and_pass_iff.2 [⟨"Court E", "2025-06-05", "18:00", true⟩]
      ["Thursday", "Saturday"] ["18:00", "19:00"] (by decide) (by decide)
      ⟨"Court E", "2025-06-05", "18:00", true⟩).mpr (by decide)

/-- C4 (amended): with a non-empty day selector, a record is kept iff the
weekday derived by `_get_day_of_week_safe` from its date is a member of the
selector; that derived weekday is the ISO weekday when the date parses, the
raw string when the raw string is itself a weekday name, and the empty string
otherwise — so a record with an underivable date is excluded whenever the
selector does not contain the empty string. -/
theorem day_filter_pass_iff_derived_weekday
    (x : List CourtAvailability) (ds : List String) (hds : ds ≠ []) :
    (∀ r, r ∈ filter_by_days_and_times x (some ds) none ↔
        r ∈ x ∧ _get_day_of_week_safe r.date ∈ ds)
    ∧ (∀ r, isOkE (strptimeYmdE r.date) = false → dayNames.contains r.date = false →
        ds.contains "" = false → r ∉ filter_by_days_and_times x (some ds) none)
    ∧ (∀ (dt : String) (y m dd : Nat), strptimeYmdE dt = .ok (y, m, dd) →
        _get_day_of_week_safe dt = weekdayName y m dd)
    ∧ (∀ dt : String, isOkE (strptimeYmdE dt) = false → dayNames.contains dt = true →
        _get_day_of_week_safe dt = dt) := by
  obtain ⟨d, ds', rfl⟩ : ∃ d ds', ds = d :: ds' := by
    cases ds with
    | nil => exact absurd rfl hds
    | cons a b => exact ⟨a, b, rfl⟩
  have hiff : ∀ r, r ∈ filter_by_days_and_times x (some (d :: ds')) none ↔
      r ∈ x ∧ _get_day_of_week_safe r.date ∈ (d :: ds') := by
    intro r
    rw [filter_day_eq x (d :: ds') rfl]
    simp [List.mem_filter, dayPass, List.contains, List.elem_iff]
  refine ⟨hiff, ?_, ?_, ?_⟩
  · intro r hparse hnotday hnoempty hmem
    have hval : _get_day_of_week_safe r.date = "" := by
      unfold _get_day_of_week_safe
      cases hE : strptimeYmdE r.date with
      | ok v => rw [hE] at hparse; simp [isOkE] at hparse
      | error e => rw [hnotday]; simp
    have h2 := (hiff r).mp hmem
    rw [hval] at h2
    have h3 : (d :: ds').contains "" = true := by
      have := h2.2
      simpa [List.contains, List.elem_iff] using this
    rw [h3] at hnoempty
    simp at hnoempty
  · intro dt y m dd hE
    unfold _get_day_of_week_safe
    rw [hE]
  · intro dt hparse hday
    unfold _get_day_of_week_safe
    cases hE : strptimeYmdE dt with
    | ok v => rw [hE] at hparse; simp [isOkE] at hparse
    | error e => rw [hday]; simp

/-- C4 witness: a record dated 2025-06-04 derives the weekday Wednesday and is
kept by the day selector `["Wednesday"]`. -/
theorem day_filter_pass_iff_derived_weekday_witness :
    (⟨"Court D", "2025-06-04", "18:00", true⟩ : CourtAvailability) ∈
      filter_by_days_and_times [⟨"Court D", "2025-06-04", "18:00", true⟩]
        (some ["Wednesday"]) none :=
  ((day_filter_pass_iff_derived_weekday
      [⟨"Court D", "2025-06-04", "18:00", true⟩] ["Wednesday"] (by decide)).1
    ⟨"Court D", "2025-06-04", "18:00", true⟩).mpr (by decide)

/-- C4 counterexample: the claim says a record whose date neither parses as an
ISO date nor is a weekday name matches no day and is excluded, but with the
non-empty day selector `[""]` such a record is kept, because
`_get_day_of_week_safe` falls back to the empty string and the membership test
then succeeds. -/
theorem day_filter_empty_string_selector_cex :
    (⟨"Court X", "bad-date", "18:00", true⟩ : CourtAvailability) ∈
      filter_by_days_and_times [⟨"Court X", "bad-date", "18:00", true⟩] (some [""]) none
    ∧ isOkE (strptimeYmdE "bad-date") = false
    ∧ dayNames.contains "bad-date" = false := by decide

/-- C6 (amended): malformed record fields never raise — they are absorbed
per record: an unparseable time makes `_is_time_in_ranges` return `False`, an
underivable date makes `_get_day_of_week_safe` return `""`; consequently, with
a non-empty time selector a record with unparseable time is dropped while the
rest of the list is processed unchanged, and with a non-empty day selector not
containing the empty string a record with an underivable date is dropped
likewise. -/
theorem filter_malformed_records_excluded_per_record :
    (∀ (s : String) (rs : List (Int × Int)), isOkE (timeToMinutesE s) = false →
        _is_time_in_ranges s rs = false)
    ∧ (∀ dt : String, isOkE (strptimeYmdE dt) = false → dayNames.contains dt = false →
        _get_day_of_week_safe dt = "")
    ∧ (∀ (pre post : List CourtAvailability) (r : CourtAvailability)
          (days : Option (List String)) (ts : List String), ts ≠ [] →
        isOkE (timeToMinutesE r.time) = false →
        filter_by_days_and_times (pre ++ r :: post) days (some ts)
          = filter_by_days_and_times (pre ++ post) days (some ts))
    ∧ (∀ (pre post : List CourtAvailability) (r : CourtAvailability)
          (ds : List String) (times : Option (List String)), ds ≠ [] →
        ds.contains "" = false →
        isOkE (strptimeYmdE r.date) = false → dayNames.contains r.date = false →
        filter_by_days_and_times (pre ++ r :: post) (some ds) times
          = filter_by_days_and_times (pre ++ post) (some ds) times) := by
  have hTimeFalse : ∀ (s : String) (rs : List (Int × Int)),
      isOkE (timeToMinutesE s) = false → _is_time_in_ranges s rs = false := by
    intro s rs h
    unfold _is_time_in_ranges
    cases hE : timeToMinutesE s with
    | ok v => rw [hE] at h; simp [isOkE] at h
    | error e => rfl
  have hDayEmpty : ∀ dt : String, isOkE (strptimeYmdE dt) = false →
      dayNames.contains dt = false → _get_day_of_week_safe dt = "" := by
    intro dt hparse hnotday
    unfold _get_day_of_week_safe
    cases hE : strptimeYmdE dt with
    | ok v => rw [hE] at hparse; simp [isOkE] at hparse
    | error e => rw [hnotday]; simp
  refine ⟨hTimeFalse, hDayEmpty, ?_, ?_⟩
  · intro pre post r days ts hts hbad
    have hq : timePass ts r = false := hTimeFalse r.time _ hbad
    obtain ⟨t, ts', rfl⟩ : ∃ t ts', ts = t :: ts' := by
      cases ts with
      | nil => exact absurd rfl hts
      | cons a b => exact ⟨a, b, rfl⟩
    cases days with
    | none =>
      rw [filter_time_eq _ (t :: ts') rfl, filter_time_eq _ (t :: ts') rfl]
      exact filter_drop_of_pred_false pre post r hq
    | some ds =>
      cases ds with
      | nil =>
        have h1 : ∀ y, filter_by_days_and_times y (some []) (some (t :: ts'))
            = y.filter (timePass (t :: ts')) := fun _ => rfl
        rw [h1, h1]
        exact filter_drop_of_pred_false pre post r hq
      | cons d ds' =>
        rw [filter_both_eq _ (d :: ds') (t :: ts') rfl rfl,
          filter_both_eq _ (d :: ds') (t :: ts') rfl rfl]
        cases hp : dayPass (d :: ds') r with
        | false => rw [filter_drop_of_pred_false pre post r hp]
        | true =>
          have hsplit : (pre ++ r :: post).filter (dayPass (d :: ds'))
              = pre.filter (dayPass (d :: ds')) ++ r :: post.filter (dayPass (d :: ds')) := by
            simp [List.filter_append, List.filter_cons, hp]
          rw [hsplit, filter_drop_of_pred_false _ _ r hq, ← List.filter_append]
  · intro pre post r ds times hds hnoempty hparse hnotday
    have hp : dayPass ds r = false := by
      unfold dayPass
      rw [hDayEmpty r.date hparse hnotday]
      exact hnoempty
    obtain ⟨d, ds', rfl⟩ : ∃ d ds', ds = d :: ds' := by
      cases ds with
      | nil => exact absurd rfl hds
      | cons a b => exact ⟨a, b, rfl⟩
    cases times with
    | none =>
      rw [filter_day_eq _ (d :: ds') rfl, filter_day_eq _ (d :: ds') rfl]
      exact filter_drop_of_pred_false pre post r hp
    | some ts =>
      cases ts with
      | nil =>
        have h1 : ∀ y, filter_by_days_and_times y (some (d :: ds')) (some [])
            = y.filter (dayPass (d :: ds')) := fun _ => rfl
        rw [h1, h1]
        exact filter_drop_of_pred_false pre post r hp
      | cons t ts' =>
        rw [filter_both_eq _ (d :: ds') (t :: ts') rfl rfl,
          filter_both_eq _ (d :: ds') (t :: ts') rfl rfl]
        rw [filter_drop_of_pred_false pre post r hp]

/-- C6 witness: a record whose time `"bad"` does not parse is dropped by the
time selector `["18:00"]` while the well-formed record around it is processed
normally. -/
theorem filter_malformed_records_excluded_per_record_witness :
    filter_by_days_and_times
      [⟨"Court Y", "2025-06-03", "bad", true⟩, ⟨"Court Z", "2025-06-03", "18:00", true⟩]
      none (some ["18:00"])
    = filter_by_days_and_times [⟨"Court Z", "2025-06-03", "18:00", true⟩]
        none (some ["18:00"]) :=
  filter_malformed_records_excluded_per_record.2.2.1 []
    [⟨"Court Z", "2025-06-03", "18:00", true⟩] ⟨"Court Y", "2025-06-03", "bad", true⟩
    none ["18:00"] (by decide) (by decide)

/-- C6 counterexample: the claim says a record with an unparseable date is
excluded from the result, but under the active day selector `[""]` a record
whose date `"garbage"` neither parses nor names a weekday is retained, so the
exclusion is not unconditional. -/
theorem filter_malformed_date_retained_cex :
    (⟨"Court W", "garbage", "10:00", true⟩ : CourtAvailability) ∈
      filter_by_days_and_times [⟨"Court W", "garbage", "10:00", true⟩] (some [""]) none
    ∧ isOkE (strptimeYmdE "garbage") = false
    ∧ dayNames.contains "garbage" = false := by decide

/-- C7 (amended): `format_message` returns the fixed fallback message exactly
when the input is empty or no `(date, court)` group of the input contains two
or more distinct time values; in every other case the result is never the
fallback (it is the detailed digest, or a propagated `TypeError` when a court
mixes parseable and unparseable times). -/
theorem format_message_fallback_iff (availabilities : List CourtAvailability) :
    (format_message availabilities = .ok fallbackMsg ↔
      (availabilities = [] ∨ hasRealData availabilities = false))
    ∧ (∀ s, format_message availabilities = .ok s → s ≠ fallbackMsg →
        availabilities ≠ [] ∧ hasRealData availabilities = true) := by
  have hiff : format_message availabilities = .ok fallbackMsg ↔
      (availabilities = [] ∨ hasRealData availabilities = false) := by
    constructor
    · intro h
      cases hempty : availabilities.isEmpty with
      | true => exact Or.inl (List.isEmpty_iff.mp hempty)
      | false =>
        cases hreal : hasRealData availabilities with
        | false => exact Or.inr rfl
        | true =>
          exfalso
          unfold format_message at h
          rw [hempty, hreal] at h
          simp only [Bool.false_eq_true, if_false, Bool.not_true, if_neg] at h
          cases hd : digestBlocksE availabilities with
          | error e => rw [hd] at h; simp at h
          | ok body =>
            rw [hd] at h
            simp only [Except.ok.injEq] at h
            have hlen := congrArg String.length h
            rw [String.length_append, String.length_append] at hlen
            have h1 : headerMsg.length = 35 := by decide
            have h2 : ctaMsg.length = 74 := by decide
            have h3 : fallbackMsg.length = 62 := by decide
            rw [h1, h2, h3] at hlen
            omega
    · intro h
      cases h with
      | inl h => subst h; rfl
      | inr h =>
        unfold format_message
        cases hempty : availabilities.isEmpty with
        | true => rfl
        | false => rw [h]; rfl
  refine ⟨hiff, ?_⟩
  intro s hok hne
  constructor
  · intro hempty
    apply hne
    have h2 : format_message availabilities = .ok fallbackMsg := hiff.mpr (Or.inl hempty)
    rw [h2] at hok
    exact (Except.ok.inj hok).symm
  · by_contra hr
    have hreal : hasRealData availabilities = false := by
      cases hx : hasRealData availabilities with
      | true => exact absurd hx hr
      | false => rfl
    have h2 : format_message availabilities = .ok fallbackMsg := hiff.mpr (Or.inr hreal)
    rw [h2] at hok
    exact hne (Except.ok.inj hok).symm

/-- C7 witness: one court with two distinct times on one date is real data,
so `format_message` produces the detailed digest rather than the fallback. -/
theorem format_message_fallback_iff_witness :
    ([⟨"Court A", "2025-06-03", "18:00", true⟩, ⟨"Court A", "2025-06-03", "19:00", true⟩]
        : List CourtAvailability) ≠ []
    ∧ hasRealData
        [⟨"Court A", "2025-06-03", "18:00", true⟩,
         ⟨"Court A", "2025-06-03", "19:00", true⟩] = true :=
  (format_message_fallback_iff
      [⟨"Court A", "2025-06-03", "18:00", true⟩,
       ⟨"Court A", "2025-06-03", "19:00", true⟩]).2
    "🏓 *Available Pickleball Courts* 🏓\n\n*Tuesday, June 03, 2025*\n• Court A: 6:00 PM | 7:00 PM\n\nBook your court at https://sfrecpark.org/1591/Reservable-Pickleball-Courts"
    rfl (by decide)

/-- C7 counterexample: on non-placeholder input whose court mixes a parseable
and an unparseable time, `format_message` does not return the detailed digest:
it raises `TypeError`, because Python cannot sort the mixed `int`/`str` keys
of `time_slots`. -/
theorem format_message_mixed_time_keys_raise_cex :
    format_message
      [⟨"Court A", "2025-06-03", "18:00", true⟩, ⟨"Court A", "2025-06-03", "zz", true⟩]
      = .error .typeError := rfl

/-- C8 (amended): whenever `format_message` returns a message other than the
fallback, that message ends with the fixed booking call-to-action as its
terminal line; the fallback message itself (returned for empty or placeholder
input) does not end with the call-to-action. -/
theorem format_message_digest_ends_with_cta :
    (∀ (availabilities : List CourtAvailability) (s : String),
        format_message availabilities = .ok s → s ≠ fallbackMsg →
        hasSuffixStr s ctaMsg = true)
    ∧ hasSuffixStr fallbackMsg ctaMsg = false := by
  constructor
  · intro av s hok hne
    unfold format_message at hok
    cases hempty : av.isEmpty with
    | true =>
      rw [hempty] at hok
      simp only [if_true, Except.ok.injEq] at hok
      exact absurd hok.symm hne
    | false =>
      rw [hempty] at hok
      cases hreal : hasRealData av with
      | false =>
        rw [hreal] at hok
        simp only [Bool.false_eq_true, if_false, Bool.not_false, if_true,
          Except.ok.injEq] at hok
        exact absurd hok.symm hne
      | true =>
        rw [hreal] at hok
        simp only [Bool.false_eq_true, if_false, Bool.not_true, if_neg] at hok
        cases hd : digestBlocksE av with
        | error e => rw [hd] at hok; simp at hok
        | ok body =>
          rw [hd] at hok
          simp only [Except.ok.injEq] at hok
          subst hok
          unfold hasSuffixStr
          rw [List.isSuffixOf_iff_suffix, String.data_append]
          exact List.suffix_append _ _
  · decide

/-- C8 witness: a concrete digest ends with the booking call-to-action. -/
theorem format_message_digest_ends_with_cta_witness :
    hasSuffixStr
      "🏓 *Available Pickleball Courts* 🏓\n\n*Saturday, June 07, 2025*\n• Court B: 9:00 AM | 10:00 AM\n\nBook your court at https://sfrecpark.org/1591/Reservable-Pickleball-Courts"
      ctaMsg = true :=
  format_message_digest_ends_with_cta.1
    [⟨"Court B", "2025-06-07", "09:00", true⟩, ⟨"Court B", "2025-06-07", "10:00", true⟩]
    "🏓 *Available Pickleball Courts* 🏓\n\n*Saturday, June 07, 2025*\n• Court B: 9:00 AM | 10:00 AM\n\nBook your court at https://sfrecpark.org/1591/Reservable-Pickleball-Courts"
    rfl (by decide)

/-- C8 counterexample: the claim quantifies over every input list, but on the
empty list `format_message` returns the fallback message, whose terminal line
is not the booking call-to-action. -/
theorem format_message_empty_input_lacks_cta_cex :
    format_message [] = .ok fallbackMsg ∧ hasSuffixStr fallbackMsg ctaMsg = false :=
  ⟨rfl, by decide⟩

/-- C9 (amended): per-court time rendering, exercised end to end through
`renderCourt`: an hour bucket with a single distinct minute renders as a plain
12-hour time (`18:00` as `6:00 PM`); a bucket with several distinct minutes
renders compactly (`18:00` and `18:15` as `6:00, 15 PM`); a time failing
`%H:%M` parsing renders as its literal string when the court has no parseable
time alongside it; and hour groups are joined with ` | `. -/
theorem render_court_time_rules :
    renderCourt "Court 1" [⟨"Court 1", "2025-06-03", "18:00", true⟩]
        = .ok "• Court 1: 6:00 PM\n"
    ∧ renderCourt "Court 1"
        [⟨"Court 1", "2025-06-03", "18:00", true⟩, ⟨"Court 1", "2025-06-03", "18:15", true⟩]
        = .ok "• Court 1: 6:00, 15 PM\n"
    ∧ renderCourt "Court 1" [⟨"Court 1", "2025-06-03", "25:00", true⟩]
        = .ok "• Court 1: 25:00\n"
    ∧ renderCourt "Court 1"
        [⟨"Court 1", "2025-06-03", "09:00", true⟩, ⟨"Court 1", "2025-06-03", "18:00", true⟩,
         ⟨"Court 1", "2025-06-03", "18:15", true⟩]
        = .ok "• Court 1: 9:00 AM | 6:00, 15 PM\n" :=
  ⟨rfl, rfl, rfl, rfl⟩

/-- C9 counterexample: the claim says a time failing `%H:%M` parsing is
rendered as its literal string, but when the same court also holds a parseable
time the rendering never happens: sorting the mixed `int`/`str` keys of
`time_slots` raises `TypeError`. -/
theorem render_court_mixed_times_raise_cex :
    renderCourt "Court 1"
      [⟨"Court 1", "2025-06-03", "19:00", true⟩, ⟨"Court 1", "2025-06-03", "zz", true⟩]
      = .error .typeError := rfl

end Pickleball
